import Mathlib

/-!
# Verification of the SWOT simulator error-generation orchestrator

Shallow embedding of `swot_simulator/error/generator.py` (class `Generator`:
`__init__` and `generate`).  Numeric arrays carry no information the
orchestrator inspects beyond their length, so they are modelled as `List Int`;
floating-point scalars (`curvilinear_distance`, `delta_al`, `len_repeat`) are
modelled as `Int` for the same reason.  The individual error models
(`Altimeter`, `Karin`, ...), the calibration reader `utils.read_file_instr`
and the dask worker pool are external collaborators of this module: their
behaviour enters as explicit parameters (`readFile`, `run`, the completion
order `order`), while everything the orchestrator itself does is a Lean
definition translated line by line from the source.
-/

set_option autoImplicit false

namespace SwotSim

/-- A numeric array.  The orchestrator never reads array contents, only
`x_al.shape[0]`, so the element values are irrelevant; lengths are faithful. -/
abbrev Arr := List Int

/-- The calibration spectrum table returned by `utils.read_file_instr`:
the named 1-D channels that `Generator.__init__` indexes
(`error_spectrum['dilationPSD'].data`, etc.). -/
structure SpectrumTable where
  dilationPSD : Arr
  rollPSD : Arr
  phasePSD : Arr
  timingPSD : Arr
  spatial_frequency : Arr
  deriving Repr, DecidableEq

/-- The slice of `settings.Parameters` that `Generator.__init__` reads:
`error_spectrum` (optional path to the calibration file), `delta_al`,
`len_repeat`, and the configured `noise` category-name list.  Per-model
numeric tuning fields live in the external `settings` module and are not
inspected by the orchestrator. -/
structure Parameters where
  error_spectrum : Option String
  delta_al : Int
  len_repeat : Int
  noise : List String
  deriving Repr, DecidableEq

/-- An error-model instance as built by `Generator.__init__`: each variant
records the constructor arguments the source passes it — the shared
`parameters` object and, for `BaselineDilation`, `RollPhase` and `Timing`,
the calibration slices taken from the spectrum table. -/
inductive ErrorModel where
  | Altimeter (parameters : Parameters)
  | BaselineDilation (parameters : Parameters)
      (dilationPSD spatial_frequency : Arr)
  | Karin (parameters : Parameters)
  | RollPhase (parameters : Parameters)
      (rollPSD phasePSD spatial_frequency : Arr)
  | Timing (parameters : Parameters) (timingPSD spatial_frequency : Arr)
  | WetTroposphere (parameters : Parameters)
  deriving Repr, DecidableEq

/-- Errors `Generator.__init__` can raise, plus the error channel of the
external calibration reader.  `assertionError` is the bare
`assert parameters.error_spectrum is not None`;
`UnknownGeneratorError name` is the
`ValueError` "unknown error generation class: name" raised for an
unrecognised noise-category name (the spec's name for that failure);
`CalibrationFormatError` stands for whatever the external
`utils.read_file_instr` raises. -/
inductive GenError where
  | assertionError
  | UnknownGeneratorError (name : String)
  | CalibrationFormatError (msg : String)
  deriving Repr, DecidableEq

/-- An exception raised inside a submitted model computation, re-raised by
`future.result()` in `Generator.generate`. -/
structure ComputeError where
  msg : String
  deriving Repr, DecidableEq

/-- The six class names `Generator.__init__` recognises
(`Altimeter.__name__`, ...). -/
def knownNoiseNames : List String :=
  ["Altimeter", "BaselineDilation", "Karin", "RollPhase", "Timing",
   "WetTroposphere"]

/-- One iteration of the `for item in parameters.noise` loop of
`Generator.__init__`: dispatch on the class name, building the model with
exactly the calibration slices the source passes, or raise the
`ValueError` for an unknown name. -/
def dispatchModel (error_spectrum : SpectrumTable) (parameters : Parameters)
    (item : String) : Except GenError ErrorModel :=
  if item = "Altimeter" then
    .ok (.Altimeter parameters)
  else if item = "BaselineDilation" then
    .ok (.BaselineDilation parameters error_spectrum.dilationPSD
      error_spectrum.spatial_frequency)
  else if item = "Karin" then
    .ok (.Karin parameters)
  else if item = "RollPhase" then
    .ok (.RollPhase parameters error_spectrum.rollPSD
      error_spectrum.phasePSD error_spectrum.spatial_frequency)
  else if item = "Timing" then
    .ok (.Timing parameters error_spectrum.timingPSD
      error_spectrum.spatial_frequency)
  else if item = "WetTroposphere" then
    .ok (.WetTroposphere parameters)
  else
    .error (.UnknownGeneratorError item)

/-- The whole `for` loop of `Generator.__init__`: models are appended in
configured order; the first unknown name aborts construction (the partially
filled list is discarded with the raising `__init__`). -/
def initLoop (error_spectrum : SpectrumTable) (parameters : Parameters) :
    List String → Except GenError (List ErrorModel)
  | [] => .ok []
  | item :: rest => do
    let m ← dispatchModel error_spectrum parameters item
    let ms ← initLoop error_spectrum parameters rest
    pure (m :: ms)

/-- The instrumental error generator: its only field is the list
`self.generators` built by `__init__`. -/
structure Generator where
  generators : List ErrorModel
  deriving Repr, DecidableEq

/-- `Generator.__init__`, parameterised by the external calibration reader
`utils.read_file_instr` (modelled as `readFile`, which may itself fail).
Mirrors the source order: first the assertion on `parameters.error_spectrum`,
then the unconditional read of the calibration file, then the dispatch loop
over `parameters.noise`. -/
def Generator.init
    (readFile : String → Int → Int → Except GenError SpectrumTable)
    (parameters : Parameters) : Except GenError Generator :=
  match parameters.error_spectrum with
  | none => .error .assertionError
  | some path => do
    let error_spectrum ← readFile path parameters.delta_al
      parameters.len_repeat
    let gens ← initLoop error_spectrum parameters parameters.noise
    pure ⟨gens⟩

/-- The variant-specific argument binding `Generator.generate` uses at
`client.submit`: `Altimeter` gets only `x_al`; `Karin` gets `x_al`, `x_ac`,
`curvilinear_distance` and `cycle_number`; the rest get `x_al, x_ac`. -/
inductive CallArgs where
  | alongOnly (x_al : Arr)
  | alongAcross (x_al x_ac : Arr)
  | fullGeometry (x_al x_ac : Arr) (curvilinear_distance cycle_number : Int)
  deriving Repr, DecidableEq

/-- One computation unit submitted to the worker pool: the model instance
together with the arguments `client.submit` bound to its `generate` method. -/
structure Task where
  model : ErrorModel
  args : CallArgs
  deriving Repr, DecidableEq

/-- The `isinstance` chain inside `Generator.generate` that picks each
model's call arguments. -/
def bindArgs (cycle_number curvilinear_distance : Int) (x_al x_ac : Arr) :
    ErrorModel → CallArgs
  | .Altimeter _ => .alongOnly x_al
  | .BaselineDilation _ _ _ => .alongAcross x_al x_ac
  | .Karin _ => .fullGeometry x_al x_ac curvilinear_distance cycle_number
  | .RollPhase _ _ _ _ => .alongAcross x_al x_ac
  | .Timing _ _ _ => .alongAcross x_al x_ac
  | .WetTroposphere _ => .alongAcross x_al x_ac

/-- The computation units `Generator.generate` submits: none on the fast
path (`not self.generators or x_al.shape[0] == 0`), otherwise exactly one
per active model, in list order, with the variant-specific binding. -/
def Generator.submissions (g : Generator)
    (cycle_number curvilinear_distance : Int) (x_al x_ac : Arr) :
    List Task :=
  if g.generators = [] ∨ x_al.length = 0 then []
  else
    g.generators.map fun item =>
      ⟨item, bindArgs cycle_number curvilinear_distance x_al x_ac item⟩

/-- A generation result: a Python `dict` from error-field name to array,
modelled as an association list with `dict`-faithful insertion. -/
abbrev ResultMap := List (String × Arr)

/-- The list of keys of a result mapping. -/
def dictKeys (d : ResultMap) : List String := d.map Prod.fst

/-- Python `d[k]`-style lookup (first — and for a genuine dict, only —
entry with the key). -/
def dictLookup : ResultMap → String → Option Arr
  | [], _ => none
  | kv :: rest, k => if kv.1 = k then some kv.2 else dictLookup rest k

/-- Setting one key of a dict: an existing entry is overwritten in place,
a new key is appended (Python insertion-order semantics). -/
def dictInsert (d : ResultMap) (k : String) (v : Arr) : ResultMap :=
  if k ∈ dictKeys d then
    d.map fun kv => if kv.1 = k then (k, v) else kv
  else
    d ++ [(k, v)]

/-- Python `result.update(u)`: every entry of `u` is set in `result`,
overwriting clashing keys. -/
def dictUpdate (d u : ResultMap) : ResultMap :=
  u.foldl (fun acc kv => dictInsert acc kv.1 kv.2) d

/-- The drain loop
`for future in as_completed(futures): result.update(future.result())`:
each completed future's mapping is merged; the first failing
`future.result()` re-raises, discarding the local `result`. -/
def drain : List (Except ComputeError ResultMap) → ResultMap →
    Except ComputeError ResultMap
  | [], result => .ok result
  | f :: rest, result =>
    match f with
    | .error e => .error e
    | .ok r => drain rest (dictUpdate result r)

/-- Reordering a list of futures by a completion order given as a list of
indices (`dask.distributed.as_completed` yields them in arbitrary order;
theorems assume `order` is a permutation of the valid indices). -/
def applyOrder {α : Type} (order : List Nat) (l : List α) : List α :=
  order.filterMap fun i => l[i]?

/-- `Generator.generate` in state-passing form: the method reads
`self.generators` and assigns no field of `self`, so the post-state is the
unchanged receiver.  External behaviour enters as `run` (what the worker
pool computes for each submitted unit) and `order` (the completion order of
`as_completed`).  Mirrors the source: fresh empty `result`, the fast path,
submission of one unit per model via `bindArgs`, then the drain loop. -/
def Generator.generateS (g : Generator)
    (run : Task → Except ComputeError ResultMap) (order : List Nat)
    (cycle_number curvilinear_distance : Int) (x_al x_ac : Arr) :
    Generator × Except ComputeError ResultMap :=
  let result : ResultMap := []
  if g.generators = [] ∨ x_al.length = 0 then
    (g, .ok result)
  else
    let futures :=
      (g.submissions cycle_number curvilinear_distance x_al x_ac).map run
    (g, drain (applyOrder order futures) result)

/-- `Generator.generate`'s return value (or raised exception). -/
def Generator.generate (g : Generator)
    (run : Task → Except ComputeError ResultMap) (order : List Nat)
    (cycle_number curvilinear_distance : Int) (x_al x_ac : Arr) :
    Except ComputeError ResultMap :=
  (g.generateS run order cycle_number curvilinear_distance x_al x_ac).2

/-- Biased choice on options (`a` if present, else `b`); used to phrase
lookup laws of the dict merge without thunks. -/
def optOr {α : Type} : Option α → Option α → Option α
  | some v, _ => some v
  | none, b => b

/-- The model instance `Generator.__init__` builds for a known class name
(used to state what the construction loop produces; for a name outside
`knownNoiseNames` the loop raises instead and this value is never used). -/
def modelFor (error_spectrum : SpectrumTable) (parameters : Parameters)
    (item : String) : ErrorModel :=
  if item = "Altimeter" then .Altimeter parameters
  else if item = "BaselineDilation" then
    .BaselineDilation parameters error_spectrum.dilationPSD
      error_spectrum.spatial_frequency
  else if item = "Karin" then .Karin parameters
  else if item = "RollPhase" then
    .RollPhase parameters error_spectrum.rollPSD error_spectrum.phasePSD
      error_spectrum.spatial_frequency
  else if item = "Timing" then
    .Timing parameters error_spectrum.timingPSD
      error_spectrum.spatial_frequency
  else .WetTroposphere parameters

/-- The successful results among a list of futures, in list order. -/
def oks (l : List (Except ComputeError ResultMap)) : List ResultMap :=
  l.filterMap Except.toOption

/-- The per-model output mappings a worker-pool behaviour `run` produces
for a list of submitted tasks (successful ones only, in submission
order). -/
def okResults (run : Task → Except ComputeError ResultMap)
    (tasks : List Task) : List ResultMap :=
  oks (tasks.map run)

/-- Pairwise disjointness of the key sets of a list of result mappings:
the invariant the spec demands of the active models' output field names. -/
def DisjointKeys (rs : List ResultMap) : Prop :=
  rs.Pairwise fun r s => ∀ k, ¬(k ∈ dictKeys r ∧ k ∈ dictKeys s)

/-! ## Concrete fixtures used to exercise the theorems -/

/-- A small concrete calibration table. -/
def tblW : SpectrumTable := ⟨[10], [20], [30], [40], [50]⟩

/-- Concrete simulation settings with a given noise list. -/
def pW (noise : List String) : Parameters :=
  ⟨some "karin_noise.nc", 2, 21, noise⟩

/-- A calibration reader that always succeeds with `tblW`. -/
def readFileW : String → Int → Int → Except GenError SpectrumTable :=
  fun _ _ _ => .ok tblW

/-- A worker pool whose every computation fails. -/
def runFailW : Task → Except ComputeError ResultMap :=
  fun _ => .error ⟨"model computation raised"⟩

/-- A worker pool that returns a fixed one-field mapping. -/
def runOkW : Task → Except ComputeError ResultMap :=
  fun _ => .ok [("simulated_error", [3])]

/-! ## Laws of the dict model -/

theorem optOr_none_left {α : Type} (b : Option α) : optOr none b = b := rfl

theorem optOr_some_left {α : Type} (v : α) (b : Option α) :
    optOr (some v) b = some v := rfl

theorem optOr_none_right {α : Type} (a : Option α) : optOr a none = a := by
  cases a <;> rfl

theorem mem_dictKeys_iff (d : ResultMap) (k : String) :
    k ∈ dictKeys d ↔ (dictLookup d k).isSome := by
  induction d with
  | nil => simp [dictKeys, dictLookup]
  | cons kv rest ih =>
    by_cases h : kv.1 = k
    · simp [dictKeys, dictLookup, h]
    · simp only [dictKeys, List.map_cons, List.mem_cons, dictLookup, if_neg h]
      constructor
      · rintro (h' | h')
        · exact absurd h'.symm h
        · exact (ih.mp h')
      · intro h'
        exact Or.inr (ih.mpr h')

theorem dictLookup_append (d l : ResultMap) (k : String) :
    dictLookup (d ++ l) k = optOr (dictLookup d k) (dictLookup l k) := by
  induction d with
  | nil => simp [dictLookup, optOr_none_left]
  | cons kv rest ih =>
    by_cases h : kv.1 = k
    · simp [dictLookup, h, optOr_some_left]
    · simpa [dictLookup, h] using ih

theorem dictLookup_map_overwrite_ne (d : ResultMap) (k k' : String)
    (v : Arr) (h : k' ≠ k) :
    dictLookup (d.map fun kv => if kv.1 = k' then (k', v) else kv) k =
      dictLookup d k := by
  induction d with
  | nil => rfl
  | cons kv rest ih =>
    by_cases hk : kv.1 = k'
    · simp [dictLookup, hk, h, ih]
    · by_cases hk2 : kv.1 = k
      · simp [dictLookup, hk, hk2, Ne.symm h]
      · simp [dictLookup, hk, hk2, ih]

theorem dictLookup_map_overwrite_eq (d : ResultMap) (k' : String) (v : Arr)
    (h : k' ∈ dictKeys d) :
    dictLookup (d.map fun kv => if kv.1 = k' then (k', v) else kv) k' =
      some v := by
  induction d with
  | nil => simp [dictKeys] at h
  | cons kv rest ih =>
    by_cases hk : kv.1 = k'
    · simp [dictLookup, hk]
    · have h' : k' ∈ dictKeys rest := by
        simp only [dictKeys, List.map_cons, List.mem_cons] at h
        rcases h with h | h
        · exact absurd h.symm hk
        · exact h
      simp [dictLookup, hk, ih h']

theorem dictLookup_dictInsert (d : ResultMap) (k' k : String) (v : Arr) :
    dictLookup (dictInsert d k' v) k =
      if k' = k then some v else dictLookup d k := by
  unfold dictInsert
  by_cases hmem : k' ∈ dictKeys d
  · rw [if_pos hmem]
    by_cases hk : k' = k
    · subst hk
      simp [dictLookup_map_overwrite_eq d k' v hmem]
    · simp [dictLookup_map_overwrite_ne d k k' v hk, hk]
  · rw [if_neg hmem]
    rw [dictLookup_append]
    by_cases hk : k' = k
    · subst hk
      have : dictLookup d k' = none := by
        by_contra hc
        exact hmem ((mem_dictKeys_iff d k').mpr
          (Option.isSome_iff_ne_none.mpr hc))
      simp [this, dictLookup, optOr_none_left]
    · simp [dictLookup, hk, optOr_none_right]

theorem mem_dictKeys_dictInsert (d : ResultMap) (k' k : String) (v : Arr) :
    k ∈ dictKeys (dictInsert d k' v) ↔ k' = k ∨ k ∈ dictKeys d := by
  rw [mem_dictKeys_iff, dictLookup_dictInsert, mem_dictKeys_iff]
  by_cases hk : k' = k <;> simp [hk]

theorem mem_dictKeys_dictUpdate (d u : ResultMap) (k : String) :
    k ∈ dictKeys (dictUpdate d u) ↔ k ∈ dictKeys d ∨ k ∈ dictKeys u := by
  induction u generalizing d with
  | nil => simp [dictUpdate, dictKeys]
  | cons kv rest ih =>
    show k ∈ dictKeys (dictUpdate (dictInsert d kv.1 kv.2) rest) ↔ _
    rw [ih, mem_dictKeys_dictInsert]
    simp only [dictKeys, List.map_cons, List.mem_cons]
    tauto

theorem dictLookup_dictUpdate (d u : ResultMap)
    (hnd : (dictKeys u).Nodup) (k : String) :
    dictLookup (dictUpdate d u) k =
      optOr (dictLookup u k) (dictLookup d k) := by
  induction u generalizing d with
  | nil => simp [dictUpdate, dictLookup, optOr_none_left]
  | cons kv rest ih =>
    rw [show dictKeys (kv :: rest) = kv.1 :: dictKeys rest from rfl] at hnd
    obtain ⟨hnotmem, hnd'⟩ := List.nodup_cons.mp hnd
    show dictLookup (dictUpdate (dictInsert d kv.1 kv.2) rest) k = _
    rw [ih _ hnd', dictLookup_dictInsert]
    by_cases hk : kv.1 = k
    · subst hk
      have : dictLookup rest kv.1 = none := by
        by_contra hc
        exact hnotmem ((mem_dictKeys_iff rest kv.1).mpr
          (Option.isSome_iff_ne_none.mpr hc))
      simp [dictLookup, this, optOr]
    · simp [dictLookup, hk]

/-! ## Laws of the completion-order merge -/

theorem findSomeLookup_eq_none (rs : List ResultMap) (k : String)
    (h : ∀ r ∈ rs, dictLookup r k = none) :
    rs.findSome? (fun r => dictLookup r k) = none := by
  induction rs with
  | nil => rfl
  | cons r rest ih =>
    rw [List.findSome?_cons, h r (List.mem_cons_self r rest)]
    exact ih fun s hs => h s (List.mem_cons_of_mem r hs)

theorem findSomeLookup_of_mem (rs : List ResultMap) (r : ResultMap)
    (k : String) (v : Arr) (hdisj : DisjointKeys rs) (hr : r ∈ rs)
    (hv : dictLookup r k = some v) :
    rs.findSome? (fun s => dictLookup s k) = some v := by
  induction rs with
  | nil => cases hr
  | cons r0 rest ih =>
    obtain ⟨hd1, hdisj2⟩ := List.pairwise_cons.mp hdisj
    rw [List.findSome?_cons]
    rcases List.mem_cons.mp hr with rfl | hr2
    · rw [hv]
    · have hk_r : k ∈ dictKeys r := by
        rw [mem_dictKeys_iff, hv]; rfl
      have h0 : dictLookup r0 k = none := by
        cases hcase : dictLookup r0 k with
        | none => rfl
        | some w =>
          have hk0 : k ∈ dictKeys r0 := by
            rw [mem_dictKeys_iff, hcase]; rfl
          exact absurd ⟨hk0, hk_r⟩ (hd1 r hr2 k)
      rw [h0]
      exact ih hdisj2 hr2

theorem mergeLookup (rs : List ResultMap) (k : String)
    (hnd : ∀ r ∈ rs, (dictKeys r).Nodup) (hdisj : DisjointKeys rs) :
    ∀ d : ResultMap, dictLookup (rs.foldl dictUpdate d) k =
      optOr (rs.findSome? (fun r => dictLookup r k)) (dictLookup d k) := by
  induction rs with
  | nil => intro d; rfl
  | cons r rest ih =>
    intro d
    obtain ⟨hd1, hdisj2⟩ := List.pairwise_cons.mp hdisj
    have hnd2 : ∀ s ∈ rest, (dictKeys s).Nodup := fun s hs =>
      hnd s (List.mem_cons_of_mem r hs)
    rw [List.foldl_cons, ih hnd2 hdisj2 (dictUpdate d r),
      List.findSome?_cons,
      dictLookup_dictUpdate d r (hnd r (List.mem_cons_self r rest)) k]
    cases hcase : dictLookup r k with
    | some v =>
      have hnone : rest.findSome? (fun s => dictLookup s k) = none := by
        apply findSomeLookup_eq_none
        intro s hs
        cases h2 : dictLookup s k with
        | none => rfl
        | some w =>
          have hk_r : k ∈ dictKeys r := by
            rw [mem_dictKeys_iff, hcase]; rfl
          have hk_s : k ∈ dictKeys s := by
            rw [mem_dictKeys_iff, h2]; rfl
          exact absurd ⟨hk_r, hk_s⟩ (hd1 s hs k)
      rw [hnone]
      rfl
    | none =>
      rfl

theorem mem_dictKeys_foldl_dictUpdate (rs : List ResultMap) (k : String) :
    ∀ d : ResultMap, k ∈ dictKeys (rs.foldl dictUpdate d) ↔
      k ∈ dictKeys d ∨ ∃ r ∈ rs, k ∈ dictKeys r := by
  induction rs with
  | nil => intro d; simp
  | cons r rest ih =>
    intro d
    rw [List.foldl_cons, ih (dictUpdate d r), mem_dictKeys_dictUpdate]
    constructor
    · rintro ((h | h) | ⟨s, hs, h⟩)
      · exact Or.inl h
      · exact Or.inr ⟨r, List.mem_cons_self r rest, h⟩
      · exact Or.inr ⟨s, List.mem_cons_of_mem r hs, h⟩
    · rintro (h | ⟨s, hs, h⟩)
      · exact Or.inl (Or.inl h)
      · rcases List.mem_cons.mp hs with rfl | hs2
        · exact Or.inl (Or.inr h)
        · exact Or.inr ⟨s, hs2, h⟩

/-! ## Laws of the drain loop and the completion order -/

theorem drain_all_ok (l : List (Except ComputeError ResultMap))
    (hok : ∀ f ∈ l, ∃ r, f = .ok r) :
    ∀ d : ResultMap, drain l d = .ok ((oks l).foldl dictUpdate d) := by
  induction l with
  | nil => intro d; rfl
  | cons f rest ih =>
    intro d
    obtain ⟨r, rfl⟩ := hok f (List.mem_cons_self f rest)
    have hstep : oks (Except.ok r :: rest) = r :: oks rest := by
      simp [oks, Except.toOption]
    rw [hstep, List.foldl_cons]
    exact ih (fun f2 hf => hok f2 (List.mem_cons_of_mem _ hf)) (dictUpdate d r)

theorem drain_has_error (l : List (Except ComputeError ResultMap))
    (e : ComputeError) (he : Except.error e ∈ l) :
    ∀ d : ResultMap, ∃ e2, drain l d = .error e2 := by
  induction l with
  | nil => cases he
  | cons f rest ih =>
    intro d
    cases f with
    | error e0 => exact ⟨e0, rfl⟩
    | ok r =>
      rcases List.mem_cons.mp he with h | h
      · exact Except.noConfusion h
      · exact ih h (dictUpdate d r)

theorem applyOrder_range {α : Type} : ∀ l : List α,
    applyOrder (List.range l.length) l = l := by
  intro l
  induction l with
  | nil => rfl
  | cons a l ih =>
    show (List.range (l.length + 1)).filterMap (fun i => (a :: l)[i]?) =
      a :: l
    rw [List.range_succ_eq_map, List.filterMap_cons]
    simp only [List.getElem?_cons_zero, List.filterMap_map]
    have hcomp : ((fun i => (a :: l)[i]?) ∘ Nat.succ) = fun i => l[i]? := by
      funext i
      simp
    rw [hcomp]
    exact congrArg (a :: ·) ih

theorem applyOrder_perm {α : Type} (order : List Nat) (l : List α)
    (h : order.Perm (List.range l.length)) : (applyOrder order l).Perm l := by
  have h2 := h.filterMap (fun i => l[i]?)
  rw [show (List.range l.length).filterMap (fun i => l[i]?) = l from
    applyOrder_range l] at h2
  exact h2

theorem mem_applyOrder {α : Type} (order : List Nat) (l : List α) (x : α)
    (h : x ∈ applyOrder order l) : x ∈ l := by
  obtain ⟨i, _, hx⟩ := List.mem_filterMap.mp h
  exact List.mem_iff_getElem?.mpr ⟨i, hx⟩

/-! ## Laws of construction dispatch -/

theorem dispatchModel_known (tbl : SpectrumTable) (p : Parameters)
    (item : String) (h : item ∈ knownNoiseNames) :
    dispatchModel tbl p item = .ok (modelFor tbl p item) := by
  simp only [knownNoiseNames, List.mem_cons, List.not_mem_nil, or_false]
    at h
  rcases h with rfl | rfl | rfl | rfl | rfl | rfl <;> rfl

theorem dispatchModel_unknown (tbl : SpectrumTable) (p : Parameters)
    (item : String) (h : item ∉ knownNoiseNames) :
    dispatchModel tbl p item = .error (.UnknownGeneratorError item) := by
  simp only [knownNoiseNames, List.mem_cons, List.not_mem_nil, or_false,
    not_or] at h
  obtain ⟨h1, h2, h3, h4, h5, h6⟩ := h
  simp [dispatchModel, h1, h2, h3, h4, h5, h6]

theorem initLoop_valid (tbl : SpectrumTable) (p : Parameters)
    (names : List String) (h : ∀ n ∈ names, n ∈ knownNoiseNames) :
    initLoop tbl p names = .ok (names.map (modelFor tbl p)) := by
  induction names with
  | nil => rfl
  | cons item rest ih =>
    have h1 := h item (List.mem_cons_self item rest)
    have h2 := ih fun n hn => h n (List.mem_cons_of_mem item hn)
    simp only [initLoop, dispatchModel_known tbl p item h1, h2]
    rfl

theorem initLoop_unknown (tbl : SpectrumTable) (p : Parameters)
    (names : List String) (hbad : ∃ n ∈ names, n ∉ knownNoiseNames) :
    ∃ n, n ∈ names ∧ n ∉ knownNoiseNames ∧
      initLoop tbl p names = .error (.UnknownGeneratorError n) := by
  induction names with
  | nil =>
    obtain ⟨n, hn, _⟩ := hbad
    cases hn
  | cons item rest ih =>
    by_cases hitem : item ∈ knownNoiseNames
    · have hrest : ∃ n ∈ rest, n ∉ knownNoiseNames := by
        obtain ⟨n, hn, hb⟩ := hbad
        rcases List.mem_cons.mp hn with rfl | h2
        · exact absurd hitem hb
        · exact ⟨n, h2, hb⟩
      obtain ⟨m, hm, hmbad, heq⟩ := ih hrest
      refine ⟨m, List.mem_cons_of_mem item hm, hmbad, ?_⟩
      simp only [initLoop, dispatchModel_known tbl p item hitem, heq]
      rfl
    · refine ⟨item, List.mem_cons_self item rest, hitem, ?_⟩
      simp only [initLoop, dispatchModel_unknown tbl p item hitem]
      rfl

/-! ## Unfolding laws of `Generator.generate` -/

theorem generate_empty (g : Generator)
    (run : Task → Except ComputeError ResultMap) (order : List Nat)
    (cycle_number curvilinear_distance : Int) (x_al x_ac : Arr)
    (h : g.generators = [] ∨ x_al.length = 0) :
    g.generate run order cycle_number curvilinear_distance x_al x_ac =
      .ok [] := by
  simp only [Generator.generate, Generator.generateS]
  rw [if_pos h]

theorem submissions_empty (g : Generator)
    (cycle_number curvilinear_distance : Int) (x_al x_ac : Arr)
    (h : g.generators = [] ∨ x_al.length = 0) :
    g.submissions cycle_number curvilinear_distance x_al x_ac = [] := by
  simp only [Generator.submissions]
  rw [if_pos h]

theorem submissions_map (g : Generator)
    (cycle_number curvilinear_distance : Int) (x_al x_ac : Arr)
    (h : ¬(g.generators = [] ∨ x_al.length = 0)) :
    g.submissions cycle_number curvilinear_distance x_al x_ac =
      g.generators.map fun item =>
        ⟨item, bindArgs cycle_number curvilinear_distance x_al x_ac item⟩ := by
  simp only [Generator.submissions]
  rw [if_neg h]

theorem generate_eq_drain (g : Generator)
    (run : Task → Except ComputeError ResultMap) (order : List Nat)
    (cycle_number curvilinear_distance : Int) (x_al x_ac : Arr)
    (h : ¬(g.generators = [] ∨ x_al.length = 0)) :
    g.generate run order cycle_number curvilinear_distance x_al x_ac =
      drain (applyOrder order
        ((g.submissions cycle_number curvilinear_distance x_al x_ac).map run))
        [] := by
  simp only [Generator.generate, Generator.generateS]
  rw [if_neg h]

theorem generate_ok_merge (g : Generator)
    (run : Task → Except ComputeError ResultMap) (order : List Nat)
    (cycle_number curvilinear_distance : Int) (x_al x_ac : Arr)
    (h : ¬(g.generators = [] ∨ x_al.length = 0))
    (hok : ∀ t ∈ g.submissions cycle_number curvilinear_distance x_al x_ac,
      ∃ r, run t = .ok r) :
    g.generate run order cycle_number curvilinear_distance x_al x_ac =
      .ok ((oks (applyOrder order
        ((g.submissions cycle_number curvilinear_distance x_al x_ac).map
          run))).foldl dictUpdate []) := by
  rw [generate_eq_drain g run order cycle_number curvilinear_distance
    x_al x_ac h]
  apply drain_all_ok
  intro f hf
  have hf2 := mem_applyOrder order _ f hf
  obtain ⟨t, ht, rfl⟩ := List.mem_map.mp hf2
  exact hok t ht

theorem disjoint_symm {r s : ResultMap}
    (h : ∀ k, ¬(k ∈ dictKeys r ∧ k ∈ dictKeys s)) :
    ∀ k, ¬(k ∈ dictKeys s ∧ k ∈ dictKeys r) :=
  fun k hk => h k ⟨hk.2, hk.1⟩

theorem findSomeLookup_perm (rs rs2 : List ResultMap) (hperm : rs.Perm rs2)
    (hdisj : DisjointKeys rs) (k : String) :
    rs.findSome? (fun r => dictLookup r k) =
      rs2.findSome? (fun r => dictLookup r k) := by
  have hdisj2 : DisjointKeys rs2 :=
    (List.Perm.pairwise_iff disjoint_symm hperm).mp hdisj
  by_cases hex : ∃ r ∈ rs, (dictLookup r k).isSome
  · obtain ⟨r, hr, hs⟩ := hex
    obtain ⟨v, hv⟩ := Option.isSome_iff_exists.mp hs
    rw [findSomeLookup_of_mem rs r k v hdisj hr hv,
      findSomeLookup_of_mem rs2 r k v hdisj2 (hperm.mem_iff.mp hr) hv]
  · push_neg at hex
    rw [findSomeLookup_eq_none rs k, findSomeLookup_eq_none rs2 k]
    · intro r hr
      exact Option.not_isSome_iff_eq_none.mp
        (hex r (hperm.mem_iff.mpr hr))
    · intro r hr
      exact Option.not_isSome_iff_eq_none.mp (hex r hr)

theorem mem_oks_iff (l : List (Except ComputeError ResultMap))
    (r : ResultMap) : r ∈ oks l ↔ Except.ok r ∈ l := by
  unfold oks
  rw [List.mem_filterMap]
  constructor
  · rintro ⟨f, hf, htop⟩
    cases f with
    | error e => simp [Except.toOption] at htop
    | ok r2 =>
      have : r2 = r := by
        simpa [Except.toOption] using htop
      subst this
      exact hf
  · intro hf
    exact ⟨Except.ok r, hf, rfl⟩

/-! ## Unfolding laws of `Generator.init` -/

theorem init_none
    (readFile : String → Int → Int → Except GenError SpectrumTable)
    (p : Parameters) (h : p.error_spectrum = none) :
    Generator.init readFile p = .error .assertionError := by
  unfold Generator.init
  rw [h]

theorem init_unfold
    (readFile : String → Int → Int → Except GenError SpectrumTable)
    (p : Parameters) (path : String) (h : p.error_spectrum = some path) :
    Generator.init readFile p =
      Except.bind (readFile path p.delta_al p.len_repeat) fun tbl =>
        Except.bind (initLoop tbl p p.noise) fun gens =>
          .ok ⟨gens⟩ := by
  unfold Generator.init
  rw [h]
  rfl

/-! ## The claims -/

/-- C1: if any submitted model computation raises during
`Generator.generate`, the whole call raises: it evaluates to an error, so
the caller observes no mapping at all and results merged from
earlier-completing models are discarded. -/
theorem generate_failure_atomic (g : Generator)
    (run : Task → Except ComputeError ResultMap) (order : List Nat)
    (cycle_number curvilinear_distance : Int) (x_al x_ac : Arr)
    (hperm : order.Perm (List.range
      (g.submissions cycle_number curvilinear_distance x_al x_ac).length))
    (hfail : ∃ t ∈ g.submissions cycle_number curvilinear_distance x_al x_ac,
      ∃ e, run t = .error e) :
    ∃ e2, g.generate run order cycle_number curvilinear_distance x_al x_ac =
      .error e2 := by
  obtain ⟨t, ht, e, he⟩ := hfail
  have hcond : ¬(g.generators = [] ∨ x_al.length = 0) := by
    intro h
    rw [submissions_empty g cycle_number curvilinear_distance x_al x_ac h]
      at ht
    cases ht
  rw [generate_eq_drain g run order cycle_number curvilinear_distance
    x_al x_ac hcond]
  have hperm2 : order.Perm (List.range
      ((g.submissions cycle_number curvilinear_distance x_al x_ac).map
        run).length) := by
    rwa [List.length_map]
  have hmem : Except.error e ∈
      (g.submissions cycle_number curvilinear_distance x_al x_ac).map
        run := by
    rw [← he]
    exact List.mem_map_of_mem run ht
  have hmem2 := (applyOrder_perm order _ hperm2).mem_iff.mpr hmem
  exact drain_has_error _ e hmem2 []

/-- Concrete run of `generate_failure_atomic`: one Karin model whose
computation fails makes the whole call fail. -/
theorem generate_failure_atomic_check :
    ∃ e2, (Generator.mk [.Karin (pW ["Karin"])]).generate runFailW [0]
      1 1000 [0] [5] = .error e2 :=
  generate_failure_atomic ⟨[.Karin (pW ["Karin"])]⟩ runFailW [0] 1 1000
    [0] [5] (by decide)
    ⟨⟨.Karin (pW ["Karin"]), .fullGeometry [0] [5] 1000 1⟩, by decide,
      ⟨"model computation raised"⟩, rfl⟩

/-- C2: a configured noise-category name outside the six known variants
makes construction fail: no Generator is ever produced, and — once the
assertion and the calibration read pass — the raised error is
`UnknownGeneratorError` carrying an offending name. -/
theorem init_unknown_name_fails
    (readFile : String → Int → Int → Except GenError SpectrumTable)
    (p : Parameters) (hbad : ∃ n ∈ p.noise, n ∉ knownNoiseNames) :
    (∀ g, Generator.init readFile p ≠ .ok g) ∧
    ∀ path tbl, p.error_spectrum = some path →
      readFile path p.delta_al p.len_repeat = .ok tbl →
      ∃ n, n ∈ p.noise ∧ n ∉ knownNoiseNames ∧
        Generator.init readFile p = .error (.UnknownGeneratorError n) := by
  constructor
  · intro g hok
    cases hspec : p.error_spectrum with
    | none =>
      rw [init_none readFile p hspec] at hok
      exact Except.noConfusion hok
    | some path =>
      rw [init_unfold readFile p path hspec] at hok
      cases hread : readFile path p.delta_al p.len_repeat with
      | error e =>
        rw [hread] at hok
        exact Except.noConfusion hok
      | ok tbl =>
        obtain ⟨n, hn, hnbad, heq⟩ := initLoop_unknown tbl p p.noise hbad
        rw [hread] at hok
        have hok2 : Except.bind (initLoop tbl p p.noise)
            (fun gens => Except.ok (Generator.mk gens)) = Except.ok g := hok
        rw [heq] at hok2
        exact Except.noConfusion hok2
  · intro path tbl hspec hread
    obtain ⟨n, hn, hnbad, heq⟩ := initLoop_unknown tbl p p.noise hbad
    refine ⟨n, hn, hnbad, ?_⟩
    rw [init_unfold readFile p path hspec, hread]
    show Except.bind (initLoop tbl p p.noise) _ = _
    rw [heq]
    rfl

/-- Concrete run of `init_unknown_name_fails`: the configuration
`["Bogus"]` fails with `UnknownGeneratorError` referencing "Bogus". -/
theorem init_unknown_name_fails_check :
    ∃ n, n ∈ (pW ["Bogus"]).noise ∧ n ∉ knownNoiseNames ∧
      Generator.init readFileW (pW ["Bogus"]) =
        .error (.UnknownGeneratorError n) :=
  (init_unknown_name_fails readFileW (pW ["Bogus"])
    ⟨"Bogus", by decide, by decide⟩).2 "karin_noise.nc" tblW rfl rfl

/-- C3: with no active models, or a zero-length along-track array,
`generate` returns an empty mapping immediately and submits zero
computation units. -/
theorem generate_fast_path (g : Generator)
    (run : Task → Except ComputeError ResultMap) (order : List Nat)
    (cycle_number curvilinear_distance : Int) (x_al x_ac : Arr)
    (h : g.generators = [] ∨ x_al.length = 0) :
    g.generate run order cycle_number curvilinear_distance x_al x_ac =
      .ok [] ∧
    g.submissions cycle_number curvilinear_distance x_al x_ac = [] :=
  ⟨generate_empty g run order cycle_number curvilinear_distance x_al x_ac h,
   submissions_empty g cycle_number curvilinear_distance x_al x_ac h⟩

/-- Concrete run of `generate_fast_path`: a zero-length along-track array
with an active Karin model yields the empty mapping and no submissions. -/
theorem generate_fast_path_check :
    (Generator.mk [.Karin (pW ["Karin"])]).generate runOkW [] 1 1000 []
      [5] = .ok [] ∧
    (Generator.mk [.Karin (pW ["Karin"])]).submissions 1 1000 [] [5] =
      [] :=
  generate_fast_path ⟨[.Karin (pW ["Karin"])]⟩ runOkW [] 1 1000 [] [5]
    (Or.inr rfl)

/-- C4: on the non-degenerate path `generate` submits exactly one
computation unit per active model, in order, and each unit carries its
variant-specific arguments: `Altimeter` only the along-track array;
`Karin` along-track, across-track, curvilinear distance and cycle number;
the other four along-track and across-track. -/
theorem submissions_per_model_binding (g : Generator)
    (cycle_number curvilinear_distance : Int) (x_al x_ac : Arr)
    (hg : g.generators ≠ []) (hx : x_al.length ≠ 0) :
    (g.submissions cycle_number curvilinear_distance x_al x_ac).length =
      g.generators.length ∧
    (∀ i (hi : i < (g.submissions cycle_number curvilinear_distance x_al
        x_ac).length) (hi2 : i < g.generators.length),
      ((g.submissions cycle_number curvilinear_distance x_al x_ac).get
        ⟨i, hi⟩).model = g.generators.get ⟨i, hi2⟩) ∧
    ∀ t ∈ g.submissions cycle_number curvilinear_distance x_al x_ac,
      (∀ q, t.model = .Altimeter q → t.args = .alongOnly x_al) ∧
      (∀ q a b, t.model = .BaselineDilation q a b →
        t.args = .alongAcross x_al x_ac) ∧
      (∀ q, t.model = .Karin q →
        t.args = .fullGeometry x_al x_ac curvilinear_distance
          cycle_number) ∧
      (∀ q a b c, t.model = .RollPhase q a b c →
        t.args = .alongAcross x_al x_ac) ∧
      (∀ q a b, t.model = .Timing q a b →
        t.args = .alongAcross x_al x_ac) ∧
      (∀ q, t.model = .WetTroposphere q →
        t.args = .alongAcross x_al x_ac) := by
  have hcond : ¬(g.generators = [] ∨ x_al.length = 0) := by
    rintro (h | h)
    · exact hg h
    · exact hx h
  rw [submissions_map g cycle_number curvilinear_distance x_al x_ac hcond]
  refine ⟨List.length_map _ _, ?_, ?_⟩
  · intro i hi hi2
    simp [List.get_map]
  · intro t ht
    obtain ⟨m, hm, rfl⟩ := List.mem_map.mp ht
    exact ⟨fun q hq => by subst hq; rfl,
      fun q a b hq => by subst hq; rfl,
      fun q hq => by subst hq; rfl,
      fun q a b c hq => by subst hq; rfl,
      fun q a b hq => by subst hq; rfl,
      fun q hq => by subst hq; rfl⟩

/-- Concrete run of `submissions_per_model_binding`: a one-model generator
submits exactly one unit. -/
theorem submissions_per_model_binding_check :
    ((Generator.mk [.Karin (pW ["Karin"])]).submissions 1 1000 [0]
      [5]).length =
      (Generator.mk [.Karin (pW ["Karin"])]).generators.length :=
  (submissions_per_model_binding ⟨[.Karin (pW ["Karin"])]⟩ 1 1000 [0] [5]
    (by decide) (by decide)).1

/-- C5: a configuration naming K distinct valid categories constructs a
Generator with exactly K model instances, in configured order, each
instantiated with only the calibration slices its variant requires
(`BaselineDilation`: dilationPSD and spatial_frequency; `RollPhase`:
rollPSD, phasePSD and spatial_frequency; `Timing`: timingPSD and
spatial_frequency; `Altimeter`, `Karin`, `WetTroposphere`: none). -/
theorem init_valid_construction
    (readFile : String → Int → Int → Except GenError SpectrumTable)
    (p : Parameters) (path : String) (tbl : SpectrumTable)
    (hnodup : p.noise.Nodup)
    (hvalid : ∀ n ∈ p.noise, n ∈ knownNoiseNames)
    (hpath : p.error_spectrum = some path)
    (hread : readFile path p.delta_al p.len_repeat = .ok tbl) :
    ∃ g, Generator.init readFile p = .ok g ∧
      g.generators.length = p.noise.length ∧
      ∀ i (hi : i < g.generators.length) (hi2 : i < p.noise.length),
        (p.noise.get ⟨i, hi2⟩ = "Altimeter" →
          g.generators.get ⟨i, hi⟩ = .Altimeter p) ∧
        (p.noise.get ⟨i, hi2⟩ = "BaselineDilation" →
          g.generators.get ⟨i, hi⟩ =
            .BaselineDilation p tbl.dilationPSD tbl.spatial_frequency) ∧
        (p.noise.get ⟨i, hi2⟩ = "Karin" →
          g.generators.get ⟨i, hi⟩ = .Karin p) ∧
        (p.noise.get ⟨i, hi2⟩ = "RollPhase" →
          g.generators.get ⟨i, hi⟩ =
            .RollPhase p tbl.rollPSD tbl.phasePSD
              tbl.spatial_frequency) ∧
        (p.noise.get ⟨i, hi2⟩ = "Timing" →
          g.generators.get ⟨i, hi⟩ =
            .Timing p tbl.timingPSD tbl.spatial_frequency) ∧
        (p.noise.get ⟨i, hi2⟩ = "WetTroposphere" →
          g.generators.get ⟨i, hi⟩ = .WetTroposphere p) := by
  refine ⟨⟨p.noise.map (modelFor tbl p)⟩, ?_, List.length_map _ _, ?_⟩
  · rw [init_unfold readFile p path hpath, hread]
    show Except.bind (initLoop tbl p p.noise) _ = _
    rw [initLoop_valid tbl p p.noise hvalid]
    rfl
  · intro i hi hi2
    have hg : (Generator.mk (p.noise.map (modelFor tbl p))).generators.get
        ⟨i, hi⟩ = modelFor tbl p (p.noise.get ⟨i, hi2⟩) := by
      simp [List.get_map]
    refine ⟨?_, ?_, ?_, ?_, ?_, ?_⟩ <;> intro hname <;> rw [hg, hname] <;>
      rfl

/-- Concrete run of `init_valid_construction` with the single category
"RollPhase": the model receives rollPSD, phasePSD and spatial_frequency. -/
theorem init_valid_construction_check :
    ∃ g, Generator.init readFileW (pW ["RollPhase"]) = .ok g ∧
      g.generators.length = (pW ["RollPhase"]).noise.length ∧
      ∀ i (hi : i < g.generators.length)
        (hi2 : i < (pW ["RollPhase"]).noise.length),
        ((pW ["RollPhase"]).noise.get ⟨i, hi2⟩ = "Altimeter" →
          g.generators.get ⟨i, hi⟩ = .Altimeter (pW ["RollPhase"])) ∧
        ((pW ["RollPhase"]).noise.get ⟨i, hi2⟩ = "BaselineDilation" →
          g.generators.get ⟨i, hi⟩ =
            .BaselineDilation (pW ["RollPhase"]) tblW.dilationPSD
              tblW.spatial_frequency) ∧
        ((pW ["RollPhase"]).noise.get ⟨i, hi2⟩ = "Karin" →
          g.generators.get ⟨i, hi⟩ = .Karin (pW ["RollPhase"])) ∧
        ((pW ["RollPhase"]).noise.get ⟨i, hi2⟩ = "RollPhase" →
          g.generators.get ⟨i, hi⟩ =
            .RollPhase (pW ["RollPhase"]) tblW.rollPSD tblW.phasePSD
              tblW.spatial_frequency) ∧
        ((pW ["RollPhase"]).noise.get ⟨i, hi2⟩ = "Timing" →
          g.generators.get ⟨i, hi⟩ =
            .Timing (pW ["RollPhase"]) tblW.timingPSD
              tblW.spatial_frequency) ∧
        ((pW ["RollPhase"]).noise.get ⟨i, hi2⟩ = "WetTroposphere" →
          g.generators.get ⟨i, hi⟩ = .WetTroposphere (pW ["RollPhase"])) :=
  init_valid_construction readFileW (pW ["RollPhase"]) "karin_noise.nc"
    tblW (by decide) (by decide) rfl rfl

/-- C6: on the non-degenerate path with every model succeeding, `generate`
returns a mapping whose field-name set is exactly the union of the field
names returned by the individual models' generate calls (every submitted
model's completed result is merged before returning). -/
theorem generate_full_union (g : Generator)
    (run : Task → Except ComputeError ResultMap) (order : List Nat)
    (cycle_number curvilinear_distance : Int) (x_al x_ac : Arr)
    (hg : g.generators ≠ []) (hx : x_al.length ≠ 0)
    (hperm : order.Perm (List.range
      (g.submissions cycle_number curvilinear_distance x_al x_ac).length))
    (hok : ∀ t ∈ g.submissions cycle_number curvilinear_distance x_al x_ac,
      ∃ r, run t = .ok r) :
    ∃ m, g.generate run order cycle_number curvilinear_distance x_al x_ac =
      .ok m ∧
      ∀ k, k ∈ dictKeys m ↔
        ∃ t ∈ g.submissions cycle_number curvilinear_distance x_al x_ac,
          ∃ r, run t = .ok r ∧ k ∈ dictKeys r := by
  have hcond : ¬(g.generators = [] ∨ x_al.length = 0) := by
    rintro (h | h)
    · exact hg h
    · exact hx h
  refine ⟨_, generate_ok_merge g run order cycle_number
    curvilinear_distance x_al x_ac hcond hok, ?_⟩
  intro k
  rw [mem_dictKeys_foldl_dictUpdate]
  have hperm2 : order.Perm (List.range
      ((g.submissions cycle_number curvilinear_distance x_al
        x_ac).map run).length) := by
    rwa [List.length_map]
  have hpo : (oks (applyOrder order ((g.submissions cycle_number
      curvilinear_distance x_al x_ac).map run))).Perm
      (oks ((g.submissions cycle_number curvilinear_distance x_al
        x_ac).map run)) :=
    (applyOrder_perm order _ hperm2).filterMap Except.toOption
  constructor
  · rintro (hkeys | ⟨r, hr, hkr⟩)
    · simp [dictKeys] at hkeys
    · have h2 := (mem_oks_iff _ r).mp (hpo.mem_iff.mp hr)
      obtain ⟨t, ht, he⟩ := List.mem_map.mp h2
      exact ⟨t, ht, r, he, hkr⟩
  · rintro ⟨t, ht, r, hrt, hkr⟩
    refine Or.inr ⟨r, ?_, hkr⟩
    apply hpo.mem_iff.mpr
    apply (mem_oks_iff _ r).mpr
    rw [← hrt]
    exact List.mem_map_of_mem run ht

/-- Concrete run of `generate_full_union`: a one-model generator returns
exactly that model's field set. -/
theorem generate_full_union_check :
    ∃ m, (Generator.mk [.Altimeter (pW ["Altimeter"])]).generate runOkW
      [0] 1 1000 [0] [5] = .ok m ∧
      ∀ k, k ∈ dictKeys m ↔
        ∃ t ∈ (Generator.mk [.Altimeter (pW ["Altimeter"])]).submissions
          1 1000 [0] [5], ∃ r, runOkW t = .ok r ∧ k ∈ dictKeys r :=
  generate_full_union ⟨[.Altimeter (pW ["Altimeter"])]⟩ runOkW [0] 1 1000
    [0] [5] (by decide) (by decide) (by decide)
    (fun t _ => ⟨[("simulated_error", [3])], rfl⟩)

/-- C7: when the per-model output mappings have pairwise-disjoint key sets,
the aggregate produced by the completion-order merge is the same mapping
(same lookup at every field name) for every completion order. -/
theorem generate_order_independent (g : Generator)
    (run : Task → Except ComputeError ResultMap) (order1 order2 : List Nat)
    (cycle_number curvilinear_distance : Int) (x_al x_ac : Arr)
    (h1 : order1.Perm (List.range
      (g.submissions cycle_number curvilinear_distance x_al x_ac).length))
    (h2 : order2.Perm (List.range
      (g.submissions cycle_number curvilinear_distance x_al x_ac).length))
    (hok : ∀ t ∈ g.submissions cycle_number curvilinear_distance x_al x_ac,
      ∃ r, run t = .ok r)
    (hnd : ∀ r ∈ okResults run (g.submissions cycle_number
      curvilinear_distance x_al x_ac), (dictKeys r).Nodup)
    (hdisj : DisjointKeys (okResults run (g.submissions cycle_number
      curvilinear_distance x_al x_ac))) :
    ∃ m1 m2,
      g.generate run order1 cycle_number curvilinear_distance x_al x_ac =
        .ok m1 ∧
      g.generate run order2 cycle_number curvilinear_distance x_al x_ac =
        .ok m2 ∧
      ∀ k, dictLookup m1 k = dictLookup m2 k := by
  by_cases hcond : g.generators = [] ∨ x_al.length = 0
  · exact ⟨[], [],
      generate_empty g run order1 cycle_number curvilinear_distance x_al
        x_ac hcond,
      generate_empty g run order2 cycle_number curvilinear_distance x_al
        x_ac hcond,
      fun _ => rfl⟩
  · refine ⟨_, _,
      generate_ok_merge g run order1 cycle_number curvilinear_distance
        x_al x_ac hcond hok,
      generate_ok_merge g run order2 cycle_number curvilinear_distance
        x_al x_ac hcond hok, ?_⟩
    intro k
    have hp1 : (oks (applyOrder order1 ((g.submissions cycle_number
        curvilinear_distance x_al x_ac).map run))).Perm
        (okResults run (g.submissions cycle_number curvilinear_distance
          x_al x_ac)) :=
      (applyOrder_perm order1 _ (by rwa [List.length_map])).filterMap
        Except.toOption
    have hp2 : (oks (applyOrder order2 ((g.submissions cycle_number
        curvilinear_distance x_al x_ac).map run))).Perm
        (okResults run (g.submissions cycle_number curvilinear_distance
          x_al x_ac)) :=
      (applyOrder_perm order2 _ (by rwa [List.length_map])).filterMap
        Except.toOption
    have hd1 : DisjointKeys (oks (applyOrder order1 ((g.submissions
        cycle_number curvilinear_distance x_al x_ac).map run))) :=
      (List.Perm.pairwise_iff disjoint_symm hp1).mpr hdisj
    have hd2 : DisjointKeys (oks (applyOrder order2 ((g.submissions
        cycle_number curvilinear_distance x_al x_ac).map run))) :=
      (List.Perm.pairwise_iff disjoint_symm hp2).mpr hdisj
    have hn1 : ∀ r ∈ oks (applyOrder order1 ((g.submissions cycle_number
        curvilinear_distance x_al x_ac).map run)), (dictKeys r).Nodup :=
      fun r hr => hnd r (hp1.mem_iff.mp hr)
    have hn2 : ∀ r ∈ oks (applyOrder order2 ((g.submissions cycle_number
        curvilinear_distance x_al x_ac).map run)), (dictKeys r).Nodup :=
      fun r hr => hnd r (hp2.mem_iff.mp hr)
    rw [mergeLookup _ k hn1 hd1 [], mergeLookup _ k hn2 hd2 [],
      findSomeLookup_perm _ _ hp1 hd1 k, findSomeLookup_perm _ _ hp2 hd2 k]

/-- Concrete run of `generate_order_independent` on a one-model
generator. -/
theorem generate_order_independent_check :
    ∃ m1 m2,
      (Generator.mk [.Karin (pW ["Karin"])]).generate runOkW [0] 1 1000
        [0] [5] = .ok m1 ∧
      (Generator.mk [.Karin (pW ["Karin"])]).generate runOkW [0] 1 1000
        [0] [5] = .ok m2 ∧
      ∀ k, dictLookup m1 k = dictLookup m2 k :=
  generate_order_independent ⟨[.Karin (pW ["Karin"])]⟩ runOkW [0] [0]
    1 1000 [0] [5] (by decide) (by decide)
    (fun t _ => ⟨[("simulated_error", [3])], rfl⟩) (by decide)
    (List.pairwise_singleton _ _)

/-- C8: `generate` keeps no state in the orchestrator: in state-passing
form the receiver after the call equals the receiver before it, for every
input and worker-pool behaviour, whether the drained computations succeed
or fail. -/
theorem generateS_frame (g : Generator)
    (run : Task → Except ComputeError ResultMap) (order : List Nat)
    (cycle_number curvilinear_distance : Int) (x_al x_ac : Arr) :
    (g.generateS run order cycle_number curvilinear_distance x_al
      x_ac).1 = g := by
  simp only [Generator.generateS]
  by_cases h : g.generators = [] ∨ x_al.length = 0
  · rw [if_pos h]
  · rw [if_neg h]

/-- C9: construction reads the calibration source unconditionally before
iterating the noise list (a failing read aborts construction for every
noise list, including the empty one), and a `None` calibration-source
setting trips the bare assertion, not a typed error. -/
theorem init_reads_spectrum_unconditionally
    (readFile : String → Int → Int → Except GenError SpectrumTable)
    (p : Parameters) :
    (p.error_spectrum = none →
      Generator.init readFile p = .error .assertionError) ∧
    ∀ path e, p.error_spectrum = some path →
      readFile path p.delta_al p.len_repeat = .error e →
      Generator.init readFile p = .error e := by
  refine ⟨init_none readFile p, ?_⟩
  intro path e hp he
  rw [init_unfold readFile p path hp, he]
  rfl

/-- Concrete run of `init_reads_spectrum_unconditionally`: a `None`
calibration source trips the assertion; a failing read aborts even with an
empty noise list. -/
theorem init_reads_spectrum_unconditionally_check :
    Generator.init readFileW ⟨none, 2, 21, ["Karin"]⟩ =
      .error .assertionError ∧
    Generator.init (fun _ _ _ => .error (.CalibrationFormatError
      "missing channel")) (pW []) =
      .error (.CalibrationFormatError "missing channel") :=
  ⟨(init_reads_spectrum_unconditionally readFileW
      ⟨none, 2, 21, ["Karin"]⟩).1 rfl,
   (init_reads_spectrum_unconditionally
      (fun _ _ _ => .error (.CalibrationFormatError "missing channel"))
      (pW [])).2 "karin_noise.nc" _ rfl rfl⟩

/-- C10: construction neither deduplicates the noise list nor checks
output-field disjointness: a repeated valid name yields one model instance
per occurrence (list lengths match), `generate` still succeeds on such a
generator whenever all computations succeed, and the merge of an entry
whose key is already present is a key overwrite (the updating mapping
wins), with no error raised. -/
theorem init_no_dedup_merge_overwrite
    (readFile : String → Int → Int → Except GenError SpectrumTable)
    (p : Parameters) (path : String) (tbl : SpectrumTable)
    (hvalid : ∀ n ∈ p.noise, n ∈ knownNoiseNames)
    (hpath : p.error_spectrum = some path)
    (hread : readFile path p.delta_al p.len_repeat = .ok tbl) :
    (∃ g, Generator.init readFile p = .ok g ∧
      g.generators.length = p.noise.length ∧
      ∀ run order cycle_number curvilinear_distance x_al x_ac,
        (∀ t ∈ Generator.submissions g cycle_number curvilinear_distance
          x_al x_ac, ∃ r, run t = .ok r) →
        ∃ m, Generator.generate g run order cycle_number
          curvilinear_distance x_al x_ac = .ok m) ∧
    ∀ d u k, (dictKeys u).Nodup → k ∈ dictKeys u →
      dictLookup (dictUpdate d u) k = dictLookup u k := by
  constructor
  · refine ⟨⟨p.noise.map (modelFor tbl p)⟩, ?_, List.length_map _ _, ?_⟩
    · rw [init_unfold readFile p path hpath, hread]
      show Except.bind (initLoop tbl p p.noise) _ = _
      rw [initLoop_valid tbl p p.noise hvalid]
      rfl
    · intro run order cycle_number curvilinear_distance x_al x_ac hok2
      by_cases hcond : (Generator.mk (p.noise.map
          (modelFor tbl p))).generators = [] ∨ x_al.length = 0
      · exact ⟨[], generate_empty _ run order cycle_number
          curvilinear_distance x_al x_ac hcond⟩
      · exact ⟨_, generate_ok_merge _ run order cycle_number
          curvilinear_distance x_al x_ac hcond hok2⟩
  · intro d u k hnd hk
    rw [dictLookup_dictUpdate d u hnd k]
    obtain ⟨v, hv⟩ := Option.isSome_iff_exists.mp
      ((mem_dictKeys_iff u k).mp hk)
    rw [hv]
    rfl

/-- Concrete run of `init_no_dedup_merge_overwrite`: the duplicated
configuration `["Karin", "Karin"]` builds two model instances. -/
theorem init_no_dedup_merge_overwrite_check :
    ∃ g, Generator.init readFileW (pW ["Karin", "Karin"]) = .ok g ∧
      g.generators.length = (pW ["Karin", "Karin"]).noise.length := by
  obtain ⟨g, hg, hlen, _⟩ := (init_no_dedup_merge_overwrite readFileW
    (pW ["Karin", "Karin"]) "karin_noise.nc" tblW (by decide) rfl rfl).1
  exact ⟨g, hg, hlen⟩

end SwotSim
